import Mathlib

/-
Verification of the tgate observing-proxy core against its specification.

The Go sources embedded here:
  internal/proxy/server.go   (Server.ServeHTTP, Server.captureRequest,
                              Server.AddListener, Server.handleMockRequest,
                              Server.GetRequestLogs)
  internal/stats/tracker.go  (Tracker.AddRequest, Tracker.IncrementOpen,
                              Tracker.DecrementOpen, Tracker.GetStats,
                              Tracker.Reset)

Durations (Go time.Duration, int64 nanoseconds) are modelled as Nat
nanoseconds; Go int counters as Int (64-bit overflow is unreachable for
per-request counters and is not modelled); float64 arithmetic in GetStats
is modelled exactly over Rat (the spec-relevant outputs are exact
divisions of integer nanosecond values).
-/

set_option maxRecDepth 100000

namespace TGate

/-
The append-then-evict-one step shared by the transaction ring buffer
(internal/proxy/server.go, captureRequest) and the three rolling windows
(internal/stats/tracker.go, AddRequest).  Go source shape:
    s.requestLog = append(s.requestLog, logEntry)
    if len(s.requestLog) > s.maxLogsCap {
        s.requestLog = s.requestLog[1:]
    }
-/
def pushCap {α : Type} (cap : Nat) (l : List α) (x : α) : List α :=
  let l2 := l ++ [x]
  if l2.length > cap then l2.drop 1 else l2

/-
internal/stats/tracker.go — the statistics tracker.  Durations are Nat
nanoseconds (Go time.Duration); counters are Int (Go int).
-/
structure Tracker where
  TotalConnections : Int
  OpenConnections : Int
  Durations : List Nat
  ResponseTimes1m : List Nat
  ResponseTimes5m : List Nat
deriving DecidableEq

namespace Tracker

/-- NewTracker creates a new statistics tracker with empty windows. -/
def NewTracker : Tracker :=
  { TotalConnections := 0, OpenConnections := 0,
    Durations := [], ResponseTimes1m := [], ResponseTimes5m := [] }

/-- AddRequest increments the total and appends the duration to all three
rolling windows, truncating each from the front past its cap (60, 300,
1000) — the append-then-conditional-drop shape is pushCap. -/
def AddRequest (t : Tracker) (d : Nat) : Tracker :=
  { t with
    TotalConnections := t.TotalConnections + 1,
    ResponseTimes1m := pushCap 60 t.ResponseTimes1m d,
    ResponseTimes5m := pushCap 300 t.ResponseTimes5m d,
    Durations := pushCap 1000 t.Durations d }

/-- IncrementOpen increments the open-connection gauge. -/
def IncrementOpen (t : Tracker) : Tracker :=
  { t with OpenConnections := t.OpenConnections + 1 }

/-- DecrementOpen decrements the open-connection gauge. -/
def DecrementOpen (t : Tracker) : Tracker :=
  { t with OpenConnections := t.OpenConnections - 1 }

/-- Reset sets all statistics back to their zero values. -/
def Reset (t : Tracker) : Tracker :=
  { t with
    TotalConnections := 0, OpenConnections := 0,
    Durations := [], ResponseTimes1m := [], ResponseTimes5m := [] }

/-- StatsResult bundles the six values returned by Tracker.GetStats, in
the Go return order (ttl, opn, rt1, rt5, p50, p90). -/
structure StatsResult where
  ttl : Int
  opn : Int
  rt1 : ℚ
  rt5 : ℚ
  p50 : ℚ
  p90 : ℚ
deriving DecidableEq

/-- sumDur is the running-sum loop over a duration window. -/
def sumDur (l : List Nat) : Nat := l.foldl (· + ·) 0

/-- GetStats mirrors Tracker.GetStats: averages over the 1m/5m windows,
percentiles by sorting a copy of Durations and indexing at
len*50/100 and len*90/100 (guarded by idx < len), zero defaults when a
window is empty.  Division by time.Millisecond = 1000000 ns is exact
over Rat. -/
def GetStats (t : Tracker) : StatsResult :=
  { ttl := t.TotalConnections
    opn := t.OpenConnections
    rt1 :=
      if t.ResponseTimes1m.length > 0 then
        (sumDur t.ResponseTimes1m : ℚ) / (t.ResponseTimes1m.length : ℚ) / 1000000
      else 0
    rt5 :=
      if t.ResponseTimes5m.length > 0 then
        (sumDur t.ResponseTimes5m : ℚ) / (t.ResponseTimes5m.length : ℚ) / 1000000
      else 0
    p50 :=
      if t.Durations.length > 0 then
        let sorted := t.Durations.insertionSort (· ≤ ·)
        let p50Idx := sorted.length * 50 / 100
        if p50Idx < sorted.length then (sorted.getD p50Idx 0 : ℚ) / 1000000 else 0
      else 0
    p90 :=
      if t.Durations.length > 0 then
        let sorted := t.Durations.insertionSort (· ≤ ·)
        let p90Idx := sorted.length * 90 / 100
        if p90Idx < sorted.length then (sorted.getD p90Idx 0 : ℚ) / 1000000 else 0
      else 0 }

end Tracker

/-
internal/proxy/server.go — listener fan-out.  A Go listener is a value of
type func(model.RequestLog); it can only fail by panicking.  A listener is
modelled as a function returning Except String Unit, where an error value
models a panic with its message.  Transaction records are abstracted to a
type parameter R (the fan-out never inspects the record).  The id field
identifies a listener so that invocation traces can name it.
-/
structure GoListener (R : Type) where
  id : Nat
  run : R → Except String Unit

/-- notifyListeners is the fan-out loop at the end of captureRequest:
    for listener := range s.listeners { listener(logEntry) }
There is no recover around the call, so a panic propagates: the loop
returns the ids of the listeners actually entered, in order, and the
panic value if one occurred (which aborts the remaining iterations). -/
def notifyListeners {R : Type} (ls : List (GoListener R)) (r : R) :
    List Nat × Option String :=
  match ls with
  | [] => ([], none)
  | l :: rest =>
    match l.run r with
    | .ok _ =>
        let p := notifyListeners rest r
        (l.id :: p.1, p.2)
    | .error e => ([l.id], some e)

/-- ListenerVal models a Go listener variable, which may be the nil
function value (none). -/
def ListenerVal (R : Type) : Type := Option (GoListener R)

/-- AddListener appends the listener to the list only when it is not nil:
    if listener != nil { s.listeners = append(s.listeners, listener) } -/
def AddListener {R : Type} (ls : List (ListenerVal R)) (l : ListenerVal R) :
    List (ListenerVal R) :=
  match l with
  | some _ => ls ++ [l]
  | none => ls

/-
internal/proxy/server.go — handleMockRequest.  The JSON object it builds
is modelled as a key/value list; Go map iteration order does not matter to
the claims (they are about the key set and the values).  Header maps are
association lists from canonical header name to the value slice, and
headerGet mirrors net/http Header.Get (first value of the entry, "" when
absent or empty).
-/
inductive JVal : Type
  | str (s : String)
  | num (n : Nat)
deriving DecidableEq

def headerGet (hs : List (String × List String)) (k : String) : String :=
  match hs.find? (fun p => p.1 == k) with
  | some (_, v :: _) => v
  | _ => ""

structure MockRequest where
  method : String
  path : String
  rawQuery : String
  headers : List (String × List String)
deriving DecidableEq

/-- handleMockRequest builds the mock-mode JSON acknowledgment: status
200 and an object with status/timestamp/method/path/headers/body_size,
plus query when the raw query is non-empty and content_type when the
request declared one.  now is the formatted RFC3339 UTC timestamp
(time.Now is a parameter of the embedding); body is the captured body
string, whose Go len is its UTF-8 byte count. -/
def handleMockRequest (now : String) (r : MockRequest) (body : String) :
    Nat × List (String × JVal) :=
  let base : List (String × JVal) :=
    [("status", .str "received"),
     ("timestamp", .str now),
     ("method", .str r.method),
     ("path", .str r.path),
     ("headers", .num r.headers.length),
     ("body_size", .num body.utf8ByteSize)]
  let withQuery :=
    if r.rawQuery.length > 0 then base ++ [("query", JVal.str r.rawQuery)]
    else base
  let ct := headerGet r.headers "Content-Type"
  let withCT :=
    if ct ≠ "" then withQuery ++ [("content_type", JVal.str ct)]
    else withQuery
  (200, withCT)

/-- jget looks a key up in the built JSON object. -/
def jget (kvs : List (String × JVal)) (k : String) : Option JVal :=
  (kvs.find? (fun p => p.1 == k)).map (·.2)

/-
internal/proxy/server.go, ServeHTTP — request-body capture.  The body
stream is a list of bytes (or none for a nil body); contentLength is the
declared Content-Length (Go int64, may be -1 for unknown).  Source:
    if r.Body != nil && r.ContentLength < 10*1024*1024 {
        bodyBytes, _ = io.ReadAll(r.Body)
        bodyString = string(bodyBytes)
        r.Body = io.NopCloser(strings.NewReader(bodyString))
    }
The result records whether the capture branch ran, the captured bytes
(empty when not captured), and the body stream left for the downstream
forwarder. -/
def bodyCaptureLimit : Int := 10 * 1024 * 1024

structure CaptureOutcome where
  didCapture : Bool
  capturedBody : List Nat
  forwardedBody : Option (List Nat)
deriving DecidableEq

def captureRequestBody (body : Option (List Nat)) (contentLength : Int) :
    CaptureOutcome :=
  match body with
  | some bs =>
      if contentLength < bodyCaptureLimit then
        { didCapture := true, capturedBody := bs, forwardedBody := some bs }
      else
        { didCapture := false, capturedBody := [], forwardedBody := some bs }
  | none =>
      { didCapture := false, capturedBody := [], forwardedBody := none }

/-
internal/proxy/server.go, ServeHTTP — the open-connection gauge protocol:
    s.stats.IncrementOpen()
    defer s.stats.DecrementOpen()
    ... handling steps ...
The handling steps are a state transformer on the tracker that returns
the tracker state at exit together with whether it exited normally
(true) or by error/panic (false); the deferred decrement runs in either
case on that exit state. -/
def serveWithGauge (t : Tracker) (body : Tracker → Tracker × Bool) : Tracker :=
  let t1 := t.IncrementOpen
  let r := body t1
  r.1.DecrementOpen

/-
internal/proxy/server.go — GetRequestLogs and the ring-buffer append,
modelled at the level of Go slices so that aliasing of backing arrays is
visible (the point of claim C9: the snapshot is a fresh array, so later
appends that mutate the buffer's backing array in place cannot change
it).  A heap is a list of backing arrays indexed by allocation order; a
slice is (array id, offset, length, capacity); records are abstracted to
a type R with a default padding value for fresh array slots.
-/
structure GoSlice where
  arr : Nat
  off : Nat
  len : Nat
  cap : Nat
deriving DecidableEq

abbrev Heap (R : Type) : Type := List (List R)

/-- view reads the elements a slice denotes out of the heap. -/
def view {R : Type} (h : Heap R) (s : GoSlice) : List R :=
  ((h.getD s.arr []).drop s.off).take s.len

/-- sliceAppend is Go append of one element: write in place past the end
when capacity allows (mutating the backing array, visible to every alias
of it), otherwise allocate a fresh larger array and copy.  The growth
amount of the fresh array is immaterial to the claims. -/
def sliceAppend {R : Type} [Inhabited R] (h : Heap R) (s : GoSlice) (x : R) :
    Heap R × GoSlice :=
  if s.len < s.cap then
    let a := h.getD s.arr []
    let a2 := a.set (s.off + s.len) x
    (h.set s.arr a2, { s with len := s.len + 1 })
  else
    let contents := view h s ++ [x]
    let newCap := 2 * s.len + 1
    let a2 := contents ++ List.replicate (newCap - contents.length) default
    (h ++ [a2], { arr := h.length, off := 0, len := s.len + 1, cap := newCap })

/-- captureStoreSlice is the storage step of captureRequest on slices:
append the entry, then when over capacity reslice off the oldest:
    s.requestLog = s.requestLog[1:] -/
def captureStoreSlice {R : Type} [Inhabited R] (h : Heap R) (s : GoSlice)
    (maxLogsCap : Nat) (x : R) : Heap R × GoSlice :=
  let p := sliceAppend h s x
  if p.2.len > maxLogsCap then
    (p.1, { arr := p.2.arr, off := p.2.off + 1, len := p.2.len - 1,
            cap := p.2.cap - 1 })
  else p

/-- GetRequestLogs allocates a fresh array of exactly the buffer's length
and copies the buffer's contents into it, returning a slice over the
fresh array:
    logs := make([]model.RequestLog, len(s.requestLog))
    copy(logs, s.requestLog)
    return logs -/
def GetRequestLogs {R : Type} (h : Heap R) (s : GoSlice) : Heap R × GoSlice :=
  let a := view h s
  (h ++ [a], { arr := h.length, off := 0, len := s.len, cap := s.len })

/-- captureRequestStore is the ring-buffer storage step of
Server.captureRequest at the level of list contents: append the entry,
then drop the oldest when over the configured cap. -/
def captureRequestStore {R : Type} (maxLogsCap : Nat) (log : List R)
    (entry : R) : List R :=
  pushCap maxLogsCap log entry

/-- listener used in concrete instances: always panics. -/
def panickingListener : GoListener Nat := ⟨0, fun _ => .error "boom"⟩

/-- listener used in concrete instances: always returns normally. -/
def okListener : GoListener Nat := ⟨1, fun _ => .ok ()⟩

/-- TrackerOp enumerates the mutating operations of the statistics
tracker (GetStats and the other readers do not modify the tracker in
the source: they only read under the lock). -/
inductive TrackerOp : Type
  | addRequest (d : Nat)
  | incrementOpen
  | decrementOpen
  | reset
deriving DecidableEq

def applyTrackerOp (t : Tracker) (op : TrackerOp) : Tracker :=
  match op with
  | .addRequest d => t.AddRequest d
  | .incrementOpen => t.IncrementOpen
  | .decrementOpen => t.DecrementOpen
  | .reset => t.Reset

/-- sortedIndexPercentileMs states the specified percentile rule: sort a
copy of the overall duration window and index the sorted sequence at
floor(n * p / 100), with no interpolation; zero when the window is
empty.  The value is converted to milliseconds like the source. -/
def sortedIndexPercentileMs (ds : List Nat) (p : Nat) : ℚ :=
  if ds.length = 0 then 0
  else ((ds.insertionSort (· ≤ ·)).getD (ds.length * p / 100) 0 : ℚ) / 1000000

/-- msTracker100 holds the synthetic window of 100 ascending samples
1ms..100ms used by the percentile scenario. -/
def msTracker100 : Tracker :=
  { Tracker.NewTracker with Durations := (List.range' 1 100).map (· * 1000000) }

/-- mockScenarioRequest is the POST /webhook?token=abc123 request of the
mock-response scenario, carrying a declared JSON content type. -/
def mockScenarioRequest : MockRequest :=
  { method := "POST", path := "/webhook", rawQuery := "token=abc123",
    headers := [("Content-Type", ["application/json"])] }

/-- mockScenarioBody is the 7-byte JSON body of the scenario. -/
def mockScenarioBody : String := "\x7b\"x\":1\x7d"

theorem pushCap_length_le {α : Type} {cap : Nat} {l : List α} (h : l.length ≤ cap)
    (x : α) : (pushCap cap l x).length ≤ cap := by
  unfold pushCap
  simp only [List.length_append, List.length_singleton]
  split <;> simp <;> omega

theorem pushCap_of_lt {α : Type} {cap : Nat} {l : List α} (h : l.length < cap)
    (x : α) : pushCap cap l x = l ++ [x] := by
  unfold pushCap
  simp only [List.length_append, List.length_singleton]
  split
  · omega
  · rfl

theorem foldl_pushCap {α : Type} (cap : Nat) (ds : List α) :
    ∀ l : List α, l.length ≤ cap →
      ds.foldl (pushCap cap) l = (l ++ ds).drop (l.length + ds.length - cap) := by
  induction ds with
  | nil =>
      intro l hl
      have h0 : l.length - cap = 0 := Nat.sub_eq_zero_of_le hl
      simp [h0]
  | cons d ds ih =>
      intro l hl
      rw [List.foldl_cons]
      by_cases hc : l.length + 1 > cap
      · have hlc : l.length = cap := by omega
        have h1 : pushCap cap l d = (l ++ [d]).drop 1 := by
          unfold pushCap
          simp only [List.length_append, List.length_singleton]
          split
          · rfl
          · omega
        have hlen : ((l ++ [d]).drop 1).length = cap := by
          simp [hlc]
        have hd1 : ((l ++ [d]) ++ ds).drop 1 = (l ++ [d]).drop 1 ++ ds :=
          List.drop_append_of_le_length (by simp)
        calc ds.foldl (pushCap cap) (pushCap cap l d)
            = ds.foldl (pushCap cap) ((l ++ [d]).drop 1) := by rw [h1]
          _ = ((l ++ [d]).drop 1 ++ ds).drop
                (((l ++ [d]).drop 1).length + ds.length - cap) := ih _ (le_of_eq hlen)
          _ = ((l ++ [d]).drop 1 ++ ds).drop ds.length := by rw [hlen]; congr 1; omega
          _ = (((l ++ [d]) ++ ds).drop 1).drop ds.length := by rw [hd1]
          _ = ((l ++ [d]) ++ ds).drop (1 + ds.length) := List.drop_drop ds.length 1 _
          _ = (l ++ d :: ds).drop (l.length + (d :: ds).length - cap) := by
                have hlen2 : (1 : Nat) + ds.length
                    = l.length + (d :: ds).length - cap := by
                  simp only [List.length_cons, List.length_nil]
                  omega
                rw [List.append_assoc, List.singleton_append, hlen2]
      · have h1 : pushCap cap l d = l ++ [d] := by
          unfold pushCap
          simp only [List.length_append, List.length_singleton]
          split
          · omega
          · rfl
        have hlen : (l ++ [d]).length ≤ cap := by simp; omega
        calc ds.foldl (pushCap cap) (pushCap cap l d)
            = ds.foldl (pushCap cap) (l ++ [d]) := by rw [h1]
          _ = ((l ++ [d]) ++ ds).drop ((l ++ [d]).length + ds.length - cap) :=
              ih _ hlen
          _ = (l ++ d :: ds).drop (l.length + (d :: ds).length - cap) := by
                have hlen2 : (l ++ [d]).length + ds.length - cap
                    = l.length + (d :: ds).length - cap := by
                  simp only [List.length_append, List.length_cons,
                    List.length_nil]
                  omega
                rw [List.append_assoc, List.singleton_append, hlen2]

theorem foldl_pushCap_nil {α : Type} (cap : Nat) (ds : List α) :
    ds.foldl (pushCap cap) [] = ds.drop (ds.length - cap) := by
  have := foldl_pushCap cap ds [] (by simp)
  simpa using this

theorem addRequest_open (t : Tracker) (d : Nat) :
    (t.AddRequest d).OpenConnections = t.OpenConnections := rfl

/-- C1 counterexample: with two registered listeners of which the first
panics on every record, the fan-out loop of captureRequest enters only
the first listener; the second, later-registered listener is never
invoked with the record, contradicting the claimed isolation. -/
theorem listener_panic_skips_later_listeners :
    notifyListeners [panickingListener, okListener] 42 = ([0], some "boom")
      ∧ okListener.id ∉ (notifyListeners [panickingListener, okListener] 42).1 := by
  constructor
  · rfl
  · intro hmem
    simp [notifyListeners, panickingListener, okListener] at hmem

/-- C1 (amended): the fan-out loop invokes the registered listeners
sequentially in registration order; when no listener panics every
registered listener is invoked with the record, but a panic raised by
one listener propagates and prevents every later-registered listener
from being invoked (there is no per-listener isolation in
captureRequest). -/
theorem listener_fanout_order {R : Type} (r : R) :
    (∀ ls : List (GoListener R), (∀ l ∈ ls, l.run r = .ok ()) →
        notifyListeners ls r = (ls.map GoListener.id, none))
    ∧ (∀ (pre post : List (GoListener R)) (l : GoListener R) (e : String),
        (∀ l2 ∈ pre, l2.run r = .ok ()) → l.run r = .error e →
        notifyListeners (pre ++ l :: post) r
          = (pre.map GoListener.id ++ [l.id], some e)) := by
  constructor
  · intro ls
    induction ls with
    | nil => intro _; rfl
    | cons a as ih =>
        intro hok
        have ha : a.run r = .ok () := hok a (by simp)
        have has : ∀ l ∈ as, l.run r = .ok () := fun l hl => hok l (by simp [hl])
        simp [notifyListeners, ha, ih has]
  · intro pre
    induction pre with
    | nil =>
        intro post l e _ hl
        simp [notifyListeners, hl]
    | cons a as ih =>
        intro post l e hok hl
        have ha : a.run r = .ok () := hok a (by simp)
        have has : ∀ l2 ∈ as, l2.run r = .ok () := fun l2 h2 => hok l2 (by simp [h2])
        simp [notifyListeners, ha, ih post l e has hl]

/-- C1 witness: the amended fan-out characterization applied to the
concrete panic-free listener list. -/
theorem listener_fanout_order_witness :
    notifyListeners [okListener] 42 = ([okListener].map GoListener.id, none) :=
  (listener_fanout_order 42).1 [okListener] (by
    intro l hl
    simp only [List.mem_singleton] at hl
    subst hl
    rfl)

/-- C2: after N+k insertions (k>0) into the empty ring buffer of
capacity N >= 1, exactly N records remain and they are the k-th through
(N+k-1)-th inserted (0-indexed), i.e. the original insertion sequence
with its first k records evicted, order preserved (FIFO). -/
theorem ring_buffer_bound {R : Type} (N k : Nat) (es : List R)
    (hN : 1 ≤ N) (hk : 0 < k) (he : es.length = N + k) :
    es.foldl (captureRequestStore N) [] = es.drop k
      ∧ (es.foldl (captureRequestStore N) []).length = N := by
  have hfold : es.foldl (captureRequestStore N) [] = es.drop (es.length - N) := by
    simpa [captureRequestStore] using foldl_pushCap_nil N es
  have hk2 : es.length - N = k := by omega
  constructor
  · rw [hfold, hk2]
  · rw [hfold, hk2]
    simp [he]

/-- C2 witness: capacity 2, three insertions, the first record is
evicted and the last two remain in order. -/
theorem ring_buffer_bound_witness :
    [10, 20, 30].foldl (captureRequestStore 2) ([] : List Nat) = [20, 30]
      ∧ ([10, 20, 30].foldl (captureRequestStore 2) ([] : List Nat)).length = 2 := by
  have h := ring_buffer_bound 2 1 [10, 20, 30] (by decide) (by decide) (by decide)
  simpa using h

/-- C3: the open-connection gauge is incremented once at request start
and decremented once at completion via the deferred call, which runs
whether the handling steps exit normally or by error/panic; therefore
any sequence of completed requests whose handling steps do not
themselves touch the gauge returns it to exactly its starting value. -/
theorem open_gauge_balanced (t : Tracker)
    (bodies : List (Tracker → Tracker × Bool))
    (h : ∀ b ∈ bodies, ∀ s, ((b s).1).OpenConnections = s.OpenConnections) :
    (bodies.foldl serveWithGauge t).OpenConnections = t.OpenConnections
      ∧ (∀ s : Tracker, (s.IncrementOpen).OpenConnections = s.OpenConnections + 1)
      ∧ (∀ s : Tracker, (s.DecrementOpen).OpenConnections = s.OpenConnections - 1) := by
  refine ⟨?_, fun s => rfl, fun s => rfl⟩
  induction bodies generalizing t with
  | nil => rfl
  | cons b bs ih =>
      have hb : ∀ s, ((b s).1).OpenConnections = s.OpenConnections :=
        h b (by simp)
      have hbs : ∀ b2 ∈ bs, ∀ s, ((b2 s).1).OpenConnections = s.OpenConnections :=
        fun b2 h2 => h b2 (by simp [h2])
      rw [List.foldl_cons]
      rw [ih _ hbs]
      show (((b t.IncrementOpen).1).DecrementOpen).OpenConnections = _
      simp [Tracker.DecrementOpen, hb, Tracker.IncrementOpen]

/-- C3 witness: one normally-completing request that records a sample
and one request whose handling steps fail; the gauge returns to zero. -/
theorem open_gauge_balanced_witness :
    (([fun s => (s.AddRequest 5, true), fun s => (s, false)]
        : List (Tracker → Tracker × Bool)).foldl
          serveWithGauge Tracker.NewTracker).OpenConnections
      = Tracker.NewTracker.OpenConnections
      ∧ (∀ s : Tracker, (s.IncrementOpen).OpenConnections = s.OpenConnections + 1)
      ∧ (∀ s : Tracker, (s.DecrementOpen).OpenConnections = s.OpenConnections - 1) :=
  open_gauge_balanced Tracker.NewTracker _ (by
    intro b hb s
    simp only [List.mem_cons, List.not_mem_nil, or_false] at hb
    rcases hb with h | h <;> subst h
    · exact addRequest_open s 5
    · rfl)

/-- C8 counterexample: Reset is an operation of the statistics tracker
and it strictly decreases a positive total transaction count, refuting
unconditional monotonicity. -/
theorem total_decreases_under_reset :
    ((Tracker.NewTracker.AddRequest 5).Reset).TotalConnections
      < (Tracker.NewTracker.AddRequest 5).TotalConnections := by
  decide

/-- C8 (amended): the total transaction count never decreases under any
sequence of tracker operations that contains no Reset (AddRequest
increments it, the gauge operations leave it unchanged); Reset sets it
back to zero. -/
theorem total_monotone_without_reset (t : Tracker) (ops : List TrackerOp)
    (h : TrackerOp.reset ∉ ops) :
    t.TotalConnections ≤ (ops.foldl applyTrackerOp t).TotalConnections
      ∧ (∀ s : Tracker, (s.Reset).TotalConnections = 0) := by
  refine ⟨?_, fun s => rfl⟩
  induction ops generalizing t with
  | nil => exact le_refl _
  | cons op ops ih =>
      have hop : op ≠ TrackerOp.reset := by
        intro he
        exact h (by simp [he])
      have hops : TrackerOp.reset ∉ ops := by
        intro he
        exact h (by simp [he])
      rw [List.foldl_cons]
      refine le_trans ?_ (ih _ hops)
      cases op with
      | addRequest d =>
          show t.TotalConnections ≤ t.TotalConnections + 1
          omega
      | incrementOpen => exact le_refl _
      | decrementOpen => exact le_refl _
      | reset => exact absurd rfl hop

/-- C8 witness: a reset-free operation sequence from the fresh tracker
does not decrease the total. -/
theorem total_monotone_without_reset_witness :
    Tracker.NewTracker.TotalConnections
      ≤ ([TrackerOp.addRequest 3, TrackerOp.incrementOpen,
          TrackerOp.decrementOpen].foldl applyTrackerOp
            Tracker.NewTracker).TotalConnections
      ∧ (∀ s : Tracker, (s.Reset).TotalConnections = 0) :=
  total_monotone_without_reset Tracker.NewTracker _ (by decide)

/-- C6: the request body is captured exactly when the declared content
length is below the 10 MiB limit (for the non-nil body stream a server
handler always has), the captured bytes are then exactly the client's
bytes, and in every case — captured, over the limit, or nil body — the
body stream handed to the downstream forwarder is byte-identical to
what the client sent. -/
theorem body_capture_faithful (bs : List Nat) (cl : Int) :
    ((captureRequestBody (some bs) cl).didCapture = true ↔ cl < bodyCaptureLimit)
      ∧ (captureRequestBody (some bs) cl).forwardedBody = some bs
      ∧ (cl < bodyCaptureLimit →
          (captureRequestBody (some bs) cl).capturedBody = bs)
      ∧ (¬ cl < bodyCaptureLimit →
          (captureRequestBody (some bs) cl).capturedBody = [])
      ∧ (captureRequestBody none cl).forwardedBody = none := by
  unfold captureRequestBody
  by_cases hcl : cl < bodyCaptureLimit <;> simp [hcl]

/-- C6 witness: a 3-byte body with declared length 3 is captured intact
and forwarded unchanged. -/
theorem body_capture_faithful_witness :
    ((captureRequestBody (some [104, 105, 33]) 3).didCapture = true
        ↔ (3 : Int) < bodyCaptureLimit)
      ∧ (captureRequestBody (some [104, 105, 33]) 3).forwardedBody
          = some [104, 105, 33]
      ∧ ((3 : Int) < bodyCaptureLimit →
          (captureRequestBody (some [104, 105, 33]) 3).capturedBody
            = [104, 105, 33])
      ∧ (¬ (3 : Int) < bodyCaptureLimit →
          (captureRequestBody (some [104, 105, 33]) 3).capturedBody = [])
      ∧ (captureRequestBody none 3).forwardedBody = none :=
  body_capture_faithful [104, 105, 33] 3

/-- C10: AddListener with the nil listener value leaves the listener
list unchanged, and after any sequence of AddListener calls starting
from the empty list every stored listener is non-nil, so the fan-out
loop can never invoke a nil callback. -/
theorem add_listener_nil_noop {R : Type} (ls : List (ListenerVal R))
    (xs : List (ListenerVal R)) :
    AddListener ls none = ls
      ∧ ∀ l ∈ xs.foldl AddListener ([] : List (ListenerVal R)), l.isSome := by
  constructor
  · rfl
  · have main : ∀ (ys : List (ListenerVal R)) (acc : List (ListenerVal R)),
        (∀ l ∈ acc, l.isSome) → ∀ l ∈ ys.foldl AddListener acc, l.isSome := by
      intro ys
      induction ys with
      | nil => intro acc hacc; simpa using hacc
      | cons y ys ih =>
          intro acc hacc
          rw [List.foldl_cons]
          refine ih _ ?_
          intro l hl
          cases y with
          | none => exact hacc l hl
          | some g =>
              simp only [AddListener, List.mem_append, List.mem_singleton] at hl
              rcases hl with hl | hl
              · exact hacc l hl
              · subst hl; rfl
    exact main xs [] (by simp)

/-- C10 witness: registering a nil listener then a real one stores only
the real one, and every stored entry is non-nil. -/
theorem add_listener_nil_noop_witness :
    AddListener ([some okListener] : List (ListenerVal Nat)) none
        = [some okListener]
      ∧ ∀ l ∈ ([none, some okListener] : List (ListenerVal Nat)).foldl
          AddListener [], l.isSome :=
  add_listener_nil_noop [some okListener] [none, some okListener]

theorem pushCap_eq_drop {α : Type} {cap : Nat} {l : List α}
    (h : l.length ≤ cap) (x : α) :
    pushCap cap l x = (l ++ [x]).drop (l.length + 1 - cap) := by
  have := foldl_pushCap cap [x] l h
  simpa using this

theorem foldl_AddRequest_windows (es : List Nat) (t : Tracker) :
    (es.foldl Tracker.AddRequest t).ResponseTimes1m
        = es.foldl (pushCap 60) t.ResponseTimes1m
      ∧ (es.foldl Tracker.AddRequest t).ResponseTimes5m
        = es.foldl (pushCap 300) t.ResponseTimes5m
      ∧ (es.foldl Tracker.AddRequest t).Durations
        = es.foldl (pushCap 1000) t.Durations := by
  induction es generalizing t with
  | nil => exact ⟨rfl, rfl, rfl⟩
  | cons e es ih =>
      simp only [List.foldl_cons]
      exact ih (t.AddRequest e)

theorem window_cap_succ_scenario {cap : Nat} (d : Nat) (ds : List Nat)
    (h : ds.length = cap) :
    (d :: ds).foldl (pushCap cap) [] = ds := by
  rw [foldl_pushCap_nil]
  have h1 : (d :: ds).length - cap = 1 := by simp [h]
  rw [h1]
  rfl

/-- C7: feeding exactly cap+1 samples into each rolling window of a
fresh tracker (caps 60, 300 and 1000) leaves that window at size
exactly cap with the first-in sample absent and the second-in sample
(indeed every later sample) present; and each AddRequest appends the
sample to all three windows, truncating each from the front once its
cap is exceeded. -/
theorem stats_window_truncation
    (d1 : Nat) (ds1 : List Nat) (h1 : ds1.length = 60) (hn1 : d1 ∉ ds1)
    (d5 : Nat) (ds5 : List Nat) (h5 : ds5.length = 300) (hn5 : d5 ∉ ds5)
    (dA : Nat) (dsA : List Nat) (hA : dsA.length = 1000) (hnA : dA ∉ dsA) :
    (((d1 :: ds1).foldl Tracker.AddRequest Tracker.NewTracker).ResponseTimes1m
        = ds1
      ∧ ((d1 :: ds1).foldl Tracker.AddRequest
          Tracker.NewTracker).ResponseTimes1m.length = 60
      ∧ d1 ∉ ((d1 :: ds1).foldl Tracker.AddRequest
          Tracker.NewTracker).ResponseTimes1m)
    ∧ (((d5 :: ds5).foldl Tracker.AddRequest Tracker.NewTracker).ResponseTimes5m
        = ds5
      ∧ ((d5 :: ds5).foldl Tracker.AddRequest
          Tracker.NewTracker).ResponseTimes5m.length = 300
      ∧ d5 ∉ ((d5 :: ds5).foldl Tracker.AddRequest
          Tracker.NewTracker).ResponseTimes5m)
    ∧ (((dA :: dsA).foldl Tracker.AddRequest Tracker.NewTracker).Durations
        = dsA
      ∧ ((dA :: dsA).foldl Tracker.AddRequest
          Tracker.NewTracker).Durations.length = 1000
      ∧ dA ∉ ((dA :: dsA).foldl Tracker.AddRequest
          Tracker.NewTracker).Durations)
    ∧ (∀ (t : Tracker) (d : Nat),
        (t.ResponseTimes1m.length ≤ 60 →
          (t.AddRequest d).ResponseTimes1m
            = (t.ResponseTimes1m ++ [d]).drop (t.ResponseTimes1m.length + 1 - 60))
        ∧ (t.ResponseTimes5m.length ≤ 300 →
          (t.AddRequest d).ResponseTimes5m
            = (t.ResponseTimes5m ++ [d]).drop (t.ResponseTimes5m.length + 1 - 300))
        ∧ (t.Durations.length ≤ 1000 →
          (t.AddRequest d).Durations
            = (t.Durations ++ [d]).drop (t.Durations.length + 1 - 1000))) := by
  have w1 := (foldl_AddRequest_windows (d1 :: ds1) Tracker.NewTracker).1
  have w5 := (foldl_AddRequest_windows (d5 :: ds5) Tracker.NewTracker).2.1
  have wA := (foldl_AddRequest_windows (dA :: dsA) Tracker.NewTracker).2.2
  have e1 : (d1 :: ds1).foldl (pushCap 60) [] = ds1 :=
    window_cap_succ_scenario d1 ds1 h1
  have e5 : (d5 :: ds5).foldl (pushCap 300) [] = ds5 :=
    window_cap_succ_scenario d5 ds5 h5
  have eA : (dA :: dsA).foldl (pushCap 1000) [] = dsA :=
    window_cap_succ_scenario dA dsA hA
  have z1 : Tracker.NewTracker.ResponseTimes1m = ([] : List Nat) := rfl
  have z5 : Tracker.NewTracker.ResponseTimes5m = ([] : List Nat) := rfl
  have zA : Tracker.NewTracker.Durations = ([] : List Nat) := rfl
  refine ⟨⟨?_, ?_, ?_⟩, ⟨?_, ?_, ?_⟩, ⟨?_, ?_, ?_⟩, ?_⟩
  · rw [w1]; exact e1
  · rw [w1, z1, e1, h1]
  · rw [w1, z1, e1]; exact hn1
  · rw [w5]; exact e5
  · rw [w5, z5, e5, h5]
  · rw [w5, z5, e5]; exact hn5
  · rw [wA]; exact eA
  · rw [wA, zA, eA, hA]
  · rw [wA, zA, eA]; exact hnA
  · intro t d
    exact ⟨fun h => pushCap_eq_drop h d, fun h => pushCap_eq_drop h d,
      fun h => pushCap_eq_drop h d⟩

/-- C7 witness: the three windows fed with 61, 301 and 1001 distinct
samples respectively. -/
theorem stats_window_truncation_witness :
    (((0 :: List.range' 1 60).foldl Tracker.AddRequest
          Tracker.NewTracker).ResponseTimes1m = List.range' 1 60
      ∧ ((0 :: List.range' 1 60).foldl Tracker.AddRequest
          Tracker.NewTracker).ResponseTimes1m.length = 60
      ∧ 0 ∉ ((0 :: List.range' 1 60).foldl Tracker.AddRequest
          Tracker.NewTracker).ResponseTimes1m)
    ∧ (((0 :: List.range' 1 300).foldl Tracker.AddRequest
          Tracker.NewTracker).ResponseTimes5m = List.range' 1 300
      ∧ ((0 :: List.range' 1 300).foldl Tracker.AddRequest
          Tracker.NewTracker).ResponseTimes5m.length = 300
      ∧ 0 ∉ ((0 :: List.range' 1 300).foldl Tracker.AddRequest
          Tracker.NewTracker).ResponseTimes5m)
    ∧ (((0 :: List.range' 1 1000).foldl Tracker.AddRequest
          Tracker.NewTracker).Durations = List.range' 1 1000
      ∧ ((0 :: List.range' 1 1000).foldl Tracker.AddRequest
          Tracker.NewTracker).Durations.length = 1000
      ∧ 0 ∉ ((0 :: List.range' 1 1000).foldl Tracker.AddRequest
          Tracker.NewTracker).Durations)
    ∧ (∀ (t : Tracker) (d : Nat),
        (t.ResponseTimes1m.length ≤ 60 →
          (t.AddRequest d).ResponseTimes1m
            = (t.ResponseTimes1m ++ [d]).drop (t.ResponseTimes1m.length + 1 - 60))
        ∧ (t.ResponseTimes5m.length ≤ 300 →
          (t.AddRequest d).ResponseTimes5m
            = (t.ResponseTimes5m ++ [d]).drop (t.ResponseTimes5m.length + 1 - 300))
        ∧ (t.Durations.length ≤ 1000 →
          (t.AddRequest d).Durations
            = (t.Durations ++ [d]).drop (t.Durations.length + 1 - 1000))) :=
  stats_window_truncation
    0 (List.range' 1 60) (by simp) (by simp [List.mem_range'_1])
    0 (List.range' 1 300) (by simp) (by simp [List.mem_range'_1])
    0 (List.range' 1 1000) (by simp) (by simp [List.mem_range'_1])

theorem pct_idx_lt {n p : Nat} (hn : 0 < n) (hp : p < 100) : n * p / 100 < n :=
  Nat.div_lt_of_lt_mul (by
    calc n * p < n * 100 := mul_lt_mul_of_pos_left hp hn
      _ = 100 * n := Nat.mul_comm n 100)

theorem getStats_p50_eq (t : Tracker) :
    t.GetStats.p50 = sortedIndexPercentileMs t.Durations 50 := by
  unfold Tracker.GetStats sortedIndexPercentileMs
  by_cases hd : t.Durations.length = 0
  · simp [hd]
  · have hpos : 0 < t.Durations.length := Nat.pos_of_ne_zero hd
    have hlen : (t.Durations.insertionSort (· ≤ ·)).length = t.Durations.length :=
      List.length_insertionSort _ _
    have h50 : t.Durations.length * 50 / 100 < t.Durations.length :=
      pct_idx_lt hpos (by norm_num)
    simp only [hd, hpos, if_true, gt_iff_lt, hlen]
    simp [h50]

theorem getStats_p90_eq (t : Tracker) :
    t.GetStats.p90 = sortedIndexPercentileMs t.Durations 90 := by
  unfold Tracker.GetStats sortedIndexPercentileMs
  by_cases hd : t.Durations.length = 0
  · simp [hd]
  · have hpos : 0 < t.Durations.length := Nat.pos_of_ne_zero hd
    have hlen : (t.Durations.insertionSort (· ≤ ·)).length = t.Durations.length :=
      List.length_insertionSort _ _
    have h90 : t.Durations.length * 90 / 100 < t.Durations.length :=
      pct_idx_lt hpos (by norm_num)
    simp only [hd, hpos, if_true, gt_iff_lt, hlen]
    simp [h90]

theorem msTracker100_len : msTracker100.Durations.length = 100 := by decide

theorem msTracker100_getD50 :
    (msTracker100.Durations.insertionSort (· ≤ ·)).getD 50 0 = 51000000 := by
  decide

theorem msTracker100_getD90 :
    (msTracker100.Durations.insertionSort (· ≤ ·)).getD 90 0 = 91000000 := by
  decide

/-- C4: GetStats computes p50 and p90 exactly by the sort-a-copy,
index-at-floor(n*p/100) rule with no interpolation; every metric whose
backing window is empty is zero; and on the synthetic window of 100
ascending samples 1ms..100ms, p50 is the value at sorted index 50
(51 ms) and p90 the value at sorted index 90 (91 ms). -/
theorem getStats_percentiles (t : Tracker) :
    t.GetStats.p50 = sortedIndexPercentileMs t.Durations 50
      ∧ t.GetStats.p90 = sortedIndexPercentileMs t.Durations 90
      ∧ (t.Durations = [] → t.GetStats.p50 = 0 ∧ t.GetStats.p90 = 0)
      ∧ (t.ResponseTimes1m = [] → t.GetStats.rt1 = 0)
      ∧ (t.ResponseTimes5m = [] → t.GetStats.rt5 = 0)
      ∧ msTracker100.GetStats.p50
          = ((msTracker100.Durations.insertionSort (· ≤ ·)).getD 50 0 : ℚ)
              / 1000000
      ∧ msTracker100.GetStats.p90
          = ((msTracker100.Durations.insertionSort (· ≤ ·)).getD 90 0 : ℚ)
              / 1000000
      ∧ msTracker100.GetStats.p50 = 51
      ∧ msTracker100.GetStats.p90 = 91 := by
  refine ⟨getStats_p50_eq t, getStats_p90_eq t, ?_, ?_, ?_, ?_, ?_, ?_, ?_⟩
  · intro hd
    constructor
    · rw [getStats_p50_eq t]; simp [sortedIndexPercentileMs, hd]
    · rw [getStats_p90_eq t]; simp [sortedIndexPercentileMs, hd]
  · intro h1
    unfold Tracker.GetStats
    simp [h1]
  · intro h5
    unfold Tracker.GetStats
    simp [h5]
  · rw [getStats_p50_eq msTracker100]
    unfold sortedIndexPercentileMs
    rw [msTracker100_len, if_neg (by norm_num),
      show (100 * 50 / 100 : Nat) = 50 by norm_num]
  · rw [getStats_p90_eq msTracker100]
    unfold sortedIndexPercentileMs
    rw [msTracker100_len, if_neg (by norm_num),
      show (100 * 90 / 100 : Nat) = 90 by norm_num]
  · rw [getStats_p50_eq msTracker100]
    unfold sortedIndexPercentileMs
    rw [msTracker100_len, if_neg (by norm_num),
      show (100 * 50 / 100 : Nat) = 50 by norm_num, msTracker100_getD50]
    norm_num
  · rw [getStats_p90_eq msTracker100]
    unfold sortedIndexPercentileMs
    rw [msTracker100_len, if_neg (by norm_num),
      show (100 * 90 / 100 : Nat) = 90 by norm_num, msTracker100_getD90]
    norm_num

/-- C4 witness: the percentile characterization applied to the concrete
100-sample tracker. -/
theorem getStats_percentiles_witness :
    msTracker100.GetStats.p50 = sortedIndexPercentileMs msTracker100.Durations 50
      ∧ msTracker100.GetStats.p50 = 51 :=
  ⟨(getStats_percentiles msTracker100).1,
    (getStats_percentiles msTracker100).2.2.2.2.2.2.2.1⟩


/-- C5: in Mock mode every request gets status 200 and a JSON object
whose keys are exactly status, timestamp, method, path, headers,
body_size, plus query exactly when the raw query is non-empty and
content_type exactly when the request declared one; the values echo the
request (headers is the header-name count, body_size the captured
body's byte count). -/
theorem mock_response_contract (now : String) (r : MockRequest) (body : String) :
    (handleMockRequest now r body).1 = 200
      ∧ (handleMockRequest now r body).2.map Prod.fst
          = ["status", "timestamp", "method", "path", "headers", "body_size"]
              ++ (if r.rawQuery.length > 0 then ["query"] else [])
              ++ (if headerGet r.headers "Content-Type" ≠ "" then
                    ["content_type"] else [])
      ∧ jget (handleMockRequest now r body).2 "status" = some (.str "received")
      ∧ jget (handleMockRequest now r body).2 "timestamp" = some (.str now)
      ∧ jget (handleMockRequest now r body).2 "method" = some (.str r.method)
      ∧ jget (handleMockRequest now r body).2 "path" = some (.str r.path)
      ∧ jget (handleMockRequest now r body).2 "headers"
          = some (.num r.headers.length)
      ∧ jget (handleMockRequest now r body).2 "body_size"
          = some (.num body.utf8ByteSize)
      ∧ jget (handleMockRequest now r body).2 "query"
          = (if r.rawQuery.length > 0 then some (JVal.str r.rawQuery) else none)
      ∧ jget (handleMockRequest now r body).2 "content_type"
          = (if headerGet r.headers "Content-Type" ≠ "" then
              some (JVal.str (headerGet r.headers "Content-Type")) else none) := by
  unfold handleMockRequest jget
  by_cases hq : r.rawQuery.length > 0 <;>
    by_cases hc : headerGet r.headers "Content-Type" ≠ "" <;>
      simp [hq, hc, List.find?_append]

/-- C5 witness: the POST /webhook?token=abc123 scenario with JSON body
of 7 bytes. -/
theorem mock_response_contract_witness :
    (handleMockRequest "2025-01-01T00:00:00Z" mockScenarioRequest
        mockScenarioBody).1 = 200
      ∧ jget (handleMockRequest "2025-01-01T00:00:00Z" mockScenarioRequest
          mockScenarioBody).2 "method" = some (.str "POST")
      ∧ jget (handleMockRequest "2025-01-01T00:00:00Z" mockScenarioRequest
          mockScenarioBody).2 "path" = some (.str "/webhook")
      ∧ jget (handleMockRequest "2025-01-01T00:00:00Z" mockScenarioRequest
          mockScenarioBody).2 "query" = some (.str "token=abc123")
      ∧ jget (handleMockRequest "2025-01-01T00:00:00Z" mockScenarioRequest
          mockScenarioBody).2 "content_type" = some (.str "application/json")
      ∧ jget (handleMockRequest "2025-01-01T00:00:00Z" mockScenarioRequest
          mockScenarioBody).2 "body_size" = some (.num 7) := by
  have h := mock_response_contract "2025-01-01T00:00:00Z" mockScenarioRequest
    mockScenarioBody
  refine ⟨h.1, h.2.2.2.2.1, h.2.2.2.2.2.1, ?_, ?_, ?_⟩
  · rw [h.2.2.2.2.2.2.2.2.1]
    decide
  · rw [h.2.2.2.2.2.2.2.2.2]
    decide
  · rw [h.2.2.2.2.2.2.2.1]
    decide


theorem getD_set_ne {R : Type} (h : Heap R) (i j : Nat) (a : List R)
    (hij : i ≠ j) : (h.set i a).getD j [] = h.getD j [] := by
  simp [List.getD_eq_getElem?_getD, List.getElem?_set_ne hij]

theorem getD_append_lt {R : Type} (h : Heap R) (a : List R) (j : Nat)
    (hj : j < h.length) : (h ++ [a]).getD j [] = h.getD j [] := by
  rw [List.getD_eq_getElem?_getD, List.getD_eq_getElem?_getD,
    List.getElem?_append]
  simp [hj]

theorem getD_append_self {R : Type} (h : Heap R) (a : List R) :
    (h ++ [a]).getD h.length [] = a := by
  rw [List.getD_eq_getElem?_getD, List.getElem?_append]
  simp

theorem sliceAppend_preserves {R : Type} [Inhabited R] (h : Heap R)
    (s : GoSlice) (x : R) (snapId : Nat)
    (hlt : snapId < h.length) (hne : s.arr ≠ snapId) :
    ((sliceAppend h s x).1).getD snapId [] = h.getD snapId []
      ∧ snapId < (sliceAppend h s x).1.length
      ∧ (sliceAppend h s x).2.arr ≠ snapId := by
  unfold sliceAppend
  by_cases hsl : s.len < s.cap
  · simp only [hsl, if_true]
    refine ⟨getD_set_ne _ _ _ _ hne, ?_, hne⟩
    simpa using hlt
  · simp only [hsl, if_false]
    refine ⟨getD_append_lt _ _ _ hlt, ?_, ?_⟩
    · simp only [List.length_append, List.length_cons, List.length_nil]
      omega
    · show h.length ≠ snapId
      omega

theorem captureStoreSlice_preserves {R : Type} [Inhabited R] (cap : Nat)
    (h : Heap R) (s : GoSlice) (x : R) (snapId : Nat)
    (hlt : snapId < h.length) (hne : s.arr ≠ snapId) :
    ((captureStoreSlice h s cap x).1).getD snapId [] = h.getD snapId []
      ∧ snapId < (captureStoreSlice h s cap x).1.length
      ∧ (captureStoreSlice h s cap x).2.arr ≠ snapId := by
  have hs := sliceAppend_preserves h s x snapId hlt hne
  unfold captureStoreSlice
  by_cases hlen : (sliceAppend h s x).2.len > cap
  · simp only [hlen, if_true]
    exact ⟨hs.1, hs.2.1, hs.2.2⟩
  · simp only [hlen, if_false]
    exact hs

theorem foldl_captureStore_preserves {R : Type} [Inhabited R] (cap : Nat)
    (xs : List R) :
    ∀ (h : Heap R) (s : GoSlice) (snapId : Nat),
      snapId < h.length → s.arr ≠ snapId →
      ((xs.foldl (fun q x => captureStoreSlice q.1 q.2 cap x) (h, s)).1).getD
          snapId []
        = h.getD snapId []
      ∧ snapId
          < (xs.foldl (fun q x => captureStoreSlice q.1 q.2 cap x) (h, s)).1.length
      ∧ (xs.foldl (fun q x => captureStoreSlice q.1 q.2 cap x) (h, s)).2.arr
          ≠ snapId := by
  induction xs with
  | nil =>
      intro h s snapId hlt hne
      exact ⟨rfl, hlt, hne⟩
  | cons x xs ih =>
      intro h s snapId hlt hne
      have hstep := captureStoreSlice_preserves cap h s x snapId hlt hne
      have hrest := ih (captureStoreSlice h s cap x).1
        (captureStoreSlice h s cap x).2 snapId hstep.2.1 hstep.2.2
      rw [List.foldl_cons]
      exact ⟨hrest.1.trans hstep.1, hrest.2.1, hrest.2.2⟩

/-- C9: GetRequestLogs returns a snapshot backed by a freshly allocated
array holding a copy of the buffer contents; no later sequence of
ring-buffer appends/evictions (which may mutate the live buffer's
backing array in place) changes what the snapshot denotes, and at the
moment of the call the snapshot denotes exactly the buffer contents. -/
theorem get_request_logs_defensive {R : Type} [Inhabited R] (cap : Nat)
    (h : Heap R) (s : GoSlice) (hvalid : s.arr < h.length) (xs : List R) :
    view (xs.foldl (fun q x => captureStoreSlice q.1 q.2 cap x)
          ((GetRequestLogs h s).1, s)).1 (GetRequestLogs h s).2
        = view (GetRequestLogs h s).1 (GetRequestLogs h s).2
      ∧ view (GetRequestLogs h s).1 (GetRequestLogs h s).2 = view h s := by
  have hg1 : (GetRequestLogs h s).1 = h ++ [view h s] := rfl
  have hv1 : view (h ++ [view h s]) ((GetRequestLogs h s).2) = view h s := by
    show (((h ++ [view h s]).getD h.length []).drop 0).take s.len = view h s
    rw [getD_append_self, List.drop_zero]
    exact List.take_of_length_le (List.length_take_le _ _)
  have hst := foldl_captureStore_preserves cap xs (h ++ [view h s]) s h.length
    (by simp) (by omega)
  constructor
  · rw [hg1, hv1]
    show ((((xs.foldl (fun q x => captureStoreSlice q.1 q.2 cap x)
        (h ++ [view h s], s)).1).getD h.length []).drop 0).take s.len = view h s
    rw [hst.1, getD_append_self, List.drop_zero]
    exact List.take_of_length_le (List.length_take_le _ _)
  · rw [hg1, hv1]

/-- C9 witness: a one-array heap whose buffer has spare capacity; two
later appends mutate the live buffer in place yet the snapshot is
unchanged. -/
theorem get_request_logs_defensive_witness :
    view ([7, 8].foldl (fun q x => captureStoreSlice q.1 q.2 2 x)
          ((GetRequestLogs [[1, 2, 0, 0]] ⟨0, 0, 2, 4⟩).1, ⟨0, 0, 2, 4⟩)).1
        (GetRequestLogs [[1, 2, 0, 0]] ⟨0, 0, 2, 4⟩).2
        = view (GetRequestLogs [[1, 2, 0, 0]] ⟨0, 0, 2, 4⟩).1
            (GetRequestLogs [[1, 2, 0, 0]] ⟨0, 0, 2, 4⟩).2
      ∧ view (GetRequestLogs [[1, 2, 0, 0]] ⟨0, 0, 2, 4⟩).1
            (GetRequestLogs [[1, 2, 0, 0]] ⟨0, 0, 2, 4⟩).2
          = view ([[1, 2, 0, 0]] : Heap Nat) ⟨0, 0, 2, 4⟩ :=
  get_request_logs_defensive 2 [[1, 2, 0, 0]] ⟨0, 0, 2, 4⟩ (by decide) [7, 8]


end TGate
